import Mathlib

/-!
# A/B Testing Simulator — verification of the statistical core

Shallow embedding of the repository's two source files:

* `ab_test_sim.py` — `generate_data`, `run_ab_test`, `conversion_summary`;
* `app.py` — the dashboard guard and the p-value-vs-sample-size sweep.

Modelling conventions:

* The program only ever labels records `'A'` or `'B'`, so group labels are
  the two-element type `GroupLabel`; `df.groupby('group')` sorts labels
  ascending, which on this universe is `A` before `B`.
* `np.random.binomial(1, p, n)` is modelled as thresholding a stream
  `u : ℕ → ℚ` of uniform variates: draw `i` is `1` iff `u i < p`.  numpy
  validates its arguments before drawing and raises `ValueError` when the
  size is negative or the probability lies outside `[0,1]`; those checks
  are part of the call's semantics and appear as the `Except` error path.
* `statsmodels.stats.proportion.proportions_ztest` is translated from its
  source: proportions `count/nobs`, pooled proportion, pooled variance,
  `zstat = diff/std_diff`, two-sided p-value `2 * norm.sf |z|`.  The
  Python exceptions it can raise (`ValueError` for a one-sample call with
  no `value`, `NotImplementedError` for more than two samples) are the
  other `Except` error paths.
* Real arithmetic in the Python floats is modelled exactly over `ℚ`/`ℝ`
  (with `Real.sqrt` and the standard normal CDF as a Gaussian integral);
  division by zero follows Lean's `x / 0 = 0` convention where the floats
  would produce `NaN`/`inf` — the theorems about degenerate inputs are
  phrased in terms of which `Except` branch is taken, not those values.
-/

/-- Group labels.  The program only ever creates labels `'A'` and `'B'`. -/
inductive GroupLabel where
  | A : GroupLabel
  | B : GroupLabel
deriving DecidableEq, Repr

/-- The Python exceptions the modelled library calls can raise:
`ValueError` from numpy on an out-of-range size or probability,
`ValueError` from statsmodels on a one-sample call with no `value`,
`NotImplementedError` from statsmodels on more than two samples. -/
inductive PyError where
  | invalidParameter : PyError
  | valueRequiredOneSample : PyError
  | notImplemented : PyError
deriving DecidableEq, Repr

/-- One row of the generated dataframe: a group label and a 0/1 outcome. -/
structure TrialRecord where
  group : GroupLabel
  converted : ℕ
deriving DecidableEq, Repr

/-- The observed dataset of one simulation run (the dataframe `df`). -/
abbrev Dataset := List TrialRecord

/-- `Except.isOk` as a plain boolean, to state which branch a call took. -/
def isOkE {ε α : Type _} : Except ε α → Bool
  | .ok _ => true
  | .error _ => false

/-- The draws of `np.random.binomial(1, p, n)`: `n` Bernoulli(`p`) samples,
draw `i` being `1` iff the uniform variate `u i` falls below `p`. -/
def bernoulliDraws (p : ℚ) (n : ℕ) (u : ℕ → ℚ) : List ℕ :=
  (List.range n).map (fun i => if u i < p then 1 else 0)

/-- The rows of one group's dataframe (`pd.DataFrame({'group': g, 'converted': draws})`). -/
def labelRows (g : GroupLabel) (draws : List ℕ) : Dataset :=
  draws.map (fun c => ⟨g, c⟩)

/-- `generate_data(n_A, n_B, p_A, p_B)` from `ab_test_sim.py` lines 8–17:
two binomial draw vectors, labelled and concatenated (`pd.concat`).
numpy raises `ValueError` when a probability is outside `[0,1]` or a size
is negative; the group-A call on line 10 runs first. -/
def generate_data (n_A n_B : ℤ) (p_A p_B : ℚ) (uA uB : ℕ → ℚ) :
    Except PyError Dataset :=
  if p_A < 0 ∨ 1 < p_A ∨ n_A < 0 then .error .invalidParameter
  else if p_B < 0 ∨ 1 < p_B ∨ n_B < 0 then .error .invalidParameter
  else .ok (labelRows .A (bernoulliDraws p_A n_A.toNat uA) ++
            labelRows .B (bernoulliDraws p_B n_B.toNat uB))

/-- The rows of `df` carrying a given group label. -/
def recordsFor (df : Dataset) (g : GroupLabel) : Dataset :=
  df.filter (fun r => r.group = g)

/-- A group's success count: `df.groupby('group')['converted'].sum()`. -/
def successCount (df : Dataset) (g : GroupLabel) : ℕ :=
  ((recordsFor df g).map (·.converted)).sum

/-- A group's total count: `df.groupby('group')['converted'].count()`. -/
def totalCount (df : Dataset) (g : GroupLabel) : ℕ :=
  (recordsFor df g).length

/-- The group keys of `df.groupby('group')`, in the sorted (ascending)
order pandas uses; a group appears only if some row carries its label. -/
def presentGroups (df : Dataset) : List GroupLabel :=
  (if df.any (fun r => r.group = GroupLabel.A) then [GroupLabel.A] else []) ++
  (if df.any (fun r => r.group = GroupLabel.B) then [GroupLabel.B] else [])

/-- `conv_counts` of `run_ab_test` (line 23): per-group success counts. -/
def conv_counts (df : Dataset) : List ℕ :=
  (presentGroups df).map (successCount df)

/-- `total_counts` of `run_ab_test` (line 24): per-group totals. -/
def total_counts (df : Dataset) : List ℕ :=
  (presentGroups df).map (totalCount df)

/-- One row of the `conversion_summary` table: `sum`, `count`, and
`conversion_rate = sum / count`. -/
structure GroupSummary where
  sum : ℕ
  count : ℕ
  conversion_rate : ℚ
deriving DecidableEq, Repr

/-- `conversion_summary(df)` from `ab_test_sim.py` lines 31–35: per present
group, aggregate `sum` and `count` and divide.  It raises nothing: a group
with no rows is simply absent from the table. -/
def conversion_summary (df : Dataset) : List (GroupLabel × GroupSummary) :=
  (presentGroups df).map (fun g =>
    (g, ⟨successCount df g, totalCount df g,
         (successCount df g : ℚ) / (totalCount df g : ℚ)⟩))

/-- The standard normal CDF `Φ`. -/
noncomputable def Phi (z : ℝ) : ℝ :=
  (∫ t in Set.Iic z, Real.exp (-(t ^ 2) / 2)) / Real.sqrt (2 * Real.pi)

/-- `scipy.stats.norm.sf`, the standard normal survival function `1 - Φ`. -/
noncomputable def normSF (z : ℝ) : ℝ := 1 - Phi z

/-- `statsmodels.stats.proportion.proportions_ztest(count, nobs)` with the
default `value=None`, `alternative='two-sided'`, translated from its
source for the shapes `run_ab_test` can produce.  With one sample and no
`value` it raises `ValueError`; with two samples it computes the pooled
proportion, pooled variance, `zstat = diff / std_diff` and the two-sided
p-value `2 * norm.sf |zstat|`; any other shape raises
`NotImplementedError`. -/
noncomputable def proportions_ztest (count nobs : List ℕ) :
    Except PyError (ℝ × ℝ) :=
  match count, nobs with
  | [x1, x2], [n1, n2] =>
      let prop1 : ℝ := (x1 : ℝ) / (n1 : ℝ)
      let prop2 : ℝ := (x2 : ℝ) / (n2 : ℝ)
      let diff : ℝ := prop1 - prop2 - 0
      let p_pooled : ℝ := ((x1 : ℝ) + x2) / ((n1 : ℝ) + n2)
      let nobs_fact : ℝ := 1 / (n1 : ℝ) + 1 / (n2 : ℝ)
      let var : ℝ := p_pooled * (1 - p_pooled) * nobs_fact
      let std_diff : ℝ := Real.sqrt var
      let zstat : ℝ := diff / std_diff
      .ok (zstat, 2 * normSF |zstat|)
  | [_], [_] => .error .valueRequiredOneSample
  | _, _ => .error .notImplemented

/-- `run_ab_test(df)` from `ab_test_sim.py` lines 21–27: aggregate the
per-group counts and hand them to `proportions_ztest`. -/
noncomputable def run_ab_test (df : Dataset) : Except PyError (ℝ × ℝ) :=
  proportions_ztest (conv_counts df) (total_counts df)

/-- The full generate-then-test pipeline (`ab_test_sim.py` lines 57–58). -/
noncomputable def pipeline (n_A n_B : ℤ) (p_A p_B : ℚ) (uA uB : ℕ → ℚ) :
    Except PyError (ℝ × ℝ) :=
  (generate_data n_A n_B p_A p_B uA uB).bind run_ab_test

/-- `df.groupby('group')['converted'].mean()` from `app.py` line 87:
per-group empirical conversion rates. -/
def group_means (df : Dataset) : List (GroupLabel × ℚ) :=
  (presentGroups df).map (fun g =>
    (g, (successCount df g : ℚ) / (totalCount df g : ℚ)))

/-- Cast of a numpy float to `int` (`dtype=int`): truncation toward zero. -/
def truncToInt (q : ℚ) : ℤ :=
  if 0 ≤ q then ⌊q⌋ else ⌈q⌉

/-- Entry `i` of `np.linspace(100, max(n_A, n_B), 20, dtype=int)`
(`app.py` line 115): the `i`-th of 20 evenly spaced points from `100` to
`max n_A n_B` inclusive, cast to `int`. -/
def sweep_size (n_A n_B : ℤ) (i : ℕ) : ℤ :=
  truncToInt (100 + (i : ℚ) * (((max n_A n_B : ℤ) : ℚ) - 100) / 19)

/-- The full `sample_sizes` array of `app.py` line 115. -/
def sweep_sizes (n_A n_B : ℤ) : List ℤ :=
  (List.range 20).map (sweep_size n_A n_B)

/-- One iteration of the sweep loop (`app.py` lines 118–124): fresh draws
for both groups at the same size, then `proportions_ztest` on their sums
and lengths. -/
noncomputable def sweep_point (p_A p_B : ℚ) (size : ℕ) (uA uB : ℕ → ℚ) :
    Except PyError (ℝ × ℝ) :=
  let grpA := bernoulliDraws p_A size uA
  let grpB := bernoulliDraws p_B size uB
  proportions_ztest [grpA.sum, grpB.sum] [grpA.length, grpB.length]

/-- The sensitivity sweep (`app.py` lines 115–124): for each of the 20
sample sizes, an independent generation-plus-test run, keeping the
p-value.  Sweep point `i` draws from its own fresh streams `U i`, `V i` —
no state is shared between points. -/
noncomputable def sensitivity_sweep (n_A n_B : ℤ) (p_A p_B : ℚ)
    (U V : ℕ → ℕ → ℚ) : List (ℤ × Except PyError ℝ) :=
  (List.range 20).map (fun i =>
    (sweep_size n_A n_B i,
     (sweep_point p_A p_B (sweep_size n_A n_B i).toNat (U i) (V i)).map
       Prod.snd))

/-- What the dashboard body renders: either the results block (rates
table, z-test outcome, sensitivity sweep) or the informational prompt of
`app.py` line 137. -/
inductive DashboardView where
  | results : List (GroupLabel × ℚ) → Except PyError (ℝ × ℝ) →
      List (ℤ × Except PyError ℝ) → DashboardView
  | prompt : DashboardView

/-- The dashboard body (`app.py` lines 72–137): when all four inputs are
strictly positive, generate the dataset (lines 74–79, the same rows
`generate_data` would produce), run the z-test, summarize, and sweep;
otherwise render only the informational prompt.  The widgets guarantee
`n_A, n_B ∈ [0, 10000]` (naturals) and `p_A, p_B ∈ [0, 1]`. -/
noncomputable def app_main (n_A n_B : ℕ) (p_A p_B : ℚ) (uA uB : ℕ → ℚ)
    (U V : ℕ → ℕ → ℚ) : DashboardView :=
  if 0 < n_A ∧ 0 < n_B ∧ 0 < p_A ∧ 0 < p_B then
    let df : Dataset := labelRows .A (bernoulliDraws p_A n_A uA) ++
                        labelRows .B (bernoulliDraws p_B n_B uB)
    .results (group_means df) (run_ab_test df)
      (sensitivity_sweep n_A n_B p_A p_B U V)
  else .prompt

/-- The z-statistic exactly as the spec's Test contract words it:
`z = (p1 - p2)/SE` with `p1 = x1/n1`, `p2 = x2/n2`, pooled proportion
`p̄ = (x1+x2)/(n1+n2)` and `SE = sqrt(p̄(1-p̄)(1/n1 + 1/n2))`. -/
noncomputable def specTest_z (x1 n1 x2 n2 : ℕ) : ℝ :=
  let p1 : ℝ := (x1 : ℝ) / (n1 : ℝ)
  let p2 : ℝ := (x2 : ℝ) / (n2 : ℝ)
  let pbar : ℝ := ((x1 : ℝ) + x2) / ((n1 : ℝ) + n2)
  let SE : ℝ := Real.sqrt (pbar * (1 - pbar) * (1 / (n1 : ℝ) + 1 / (n2 : ℝ)))
  (p1 - p2) / SE

/-- The two-sided p-value exactly as the spec words it:
`p = 2·(1 - Φ(|z|))` for the standard normal CDF `Φ`. -/
noncomputable def specTest_pvalue (x1 n1 x2 n2 : ℕ) : ℝ :=
  2 * (1 - Phi |specTest_z x1 n1 x2 n2|)

/-! ## Basic facts about generated datasets -/

lemma bernoulliDraws_length (p : ℚ) (n : ℕ) (u : ℕ → ℚ) :
    (bernoulliDraws p n u).length = n := by
  simp [bernoulliDraws]

lemma bernoulliDraws_le_one (p : ℚ) (n : ℕ) (u : ℕ → ℚ) :
    ∀ x ∈ bernoulliDraws p n u, x ≤ 1 := by
  intro x hx
  simp only [bernoulliDraws, List.mem_map] at hx
  obtain ⟨i, -, rfl⟩ := hx
  split <;> simp

lemma bernoulliDraws_sum_le (p : ℚ) (n : ℕ) (u : ℕ → ℚ) :
    (bernoulliDraws p n u).sum ≤ n := by
  have h := List.sum_le_card_nsmul (bernoulliDraws p n u) 1
    (bernoulliDraws_le_one p n u)
  simpa [bernoulliDraws_length] using h

lemma bernoulliDraws_congr (p : ℚ) (n : ℕ) (u v : ℕ → ℚ)
    (h : ∀ i < n, u i = v i) :
    bernoulliDraws p n u = bernoulliDraws p n v := by
  unfold bernoulliDraws
  refine List.map_congr_left (fun i hi => ?_)
  rw [List.mem_range] at hi
  rw [h i hi]

lemma recordsFor_genA (la lb : List ℕ) :
    recordsFor (labelRows .A la ++ labelRows .B lb) .A = labelRows .A la := by
  unfold recordsFor labelRows
  rw [List.filter_append, List.filter_map, List.filter_map]
  simp [Function.comp_def]

lemma recordsFor_genB (la lb : List ℕ) :
    recordsFor (labelRows .A la ++ labelRows .B lb) .B = labelRows .B lb := by
  unfold recordsFor labelRows
  rw [List.filter_append, List.filter_map, List.filter_map]
  simp [Function.comp_def]

lemma totalCount_genA (la lb : List ℕ) :
    totalCount (labelRows .A la ++ labelRows .B lb) .A = la.length := by
  unfold totalCount
  rw [recordsFor_genA]
  simp [labelRows]

lemma totalCount_genB (la lb : List ℕ) :
    totalCount (labelRows .A la ++ labelRows .B lb) .B = lb.length := by
  unfold totalCount
  rw [recordsFor_genB]
  simp [labelRows]

lemma successCount_genA (la lb : List ℕ) :
    successCount (labelRows .A la ++ labelRows .B lb) .A = la.sum := by
  unfold successCount
  rw [recordsFor_genA]
  simp [labelRows, List.map_map, Function.comp_def]

lemma successCount_genB (la lb : List ℕ) :
    successCount (labelRows .A la ++ labelRows .B lb) .B = lb.sum := by
  unfold successCount
  rw [recordsFor_genB]
  simp [labelRows, List.map_map, Function.comp_def]

lemma presentGroups_gen (la lb : List ℕ) (ha : la ≠ []) (hb : lb ≠ []) :
    presentGroups (labelRows .A la ++ labelRows .B lb) =
      [GroupLabel.A, GroupLabel.B] := by
  obtain ⟨a, as, rfl⟩ := List.exists_cons_of_ne_nil ha
  obtain ⟨b, bs, rfl⟩ := List.exists_cons_of_ne_nil hb
  simp [presentGroups, labelRows, List.any_append]

lemma mem_presentGroups_iff (df : Dataset) (g : GroupLabel) :
    g ∈ presentGroups df ↔ ∃ r ∈ df, r.group = g := by
  cases g <;> simp [presentGroups, List.any_eq_true]

lemma totalCount_pos_of_mem (df : Dataset) (g : GroupLabel)
    (hg : g ∈ presentGroups df) : 0 < totalCount df g := by
  rw [mem_presentGroups_iff] at hg
  obtain ⟨r, hr, hgr⟩ := hg
  have : r ∈ recordsFor df g := by
    simp [recordsFor, hgr, hr]
  calc 0 < 1 := Nat.one_pos
    _ ≤ (recordsFor df g).length := List.length_pos.mpr (List.ne_nil_of_mem this)
  
lemma successCount_le_totalCount (df : Dataset) (g : GroupLabel)
    (hdf : ∀ r ∈ df, r.converted ≤ 1) :
    successCount df g ≤ totalCount df g := by
  have hall : ∀ x ∈ (recordsFor df g).map (·.converted), x ≤ 1 := by
    intro x hx
    obtain ⟨r, hr, rfl⟩ := List.mem_map.mp hx
    exact hdf r (List.mem_of_mem_filter hr)
  have h := List.sum_le_card_nsmul ((recordsFor df g).map (·.converted)) 1 hall
  simpa [successCount, totalCount] using h

lemma generated_converted_le_one (la lb : List ℕ)
    (ha : ∀ x ∈ la, x ≤ 1) (hb : ∀ x ∈ lb, x ≤ 1) :
    ∀ r ∈ labelRows .A la ++ labelRows .B lb, r.converted ≤ 1 := by
  intro r hr
  rcases List.mem_append.mp hr with h | h <;>
    obtain ⟨c, hc, rfl⟩ := List.mem_map.mp h
  · exact ha c hc
  · exact hb c hc

/-! ## C1: the test computes the spec's z and p-value -/

/-- **C1**.  For every dataset containing exactly two groups (pandas'
sorted order puts `A` first) with success counts `(x1, x2)` and total
counts `(n1, n2)`, both positive, `run_ab_test` returns the pair `(z, p)`
with `z = (p1 - p2)/SE`, `p1 = x1/n1`, `p2 = x2/n2`, pooled proportion
`p̄ = (x1+x2)/(n1+n2)`, `SE = sqrt(p̄(1-p̄)(1/n1 + 1/n2))` and
`p = 2·(1 - Φ(|z|))` — the formulas of the spec's Test contract. -/
theorem run_ab_test_eq_spec (df : Dataset)
    (hg : presentGroups df = [GroupLabel.A, GroupLabel.B])
    (h1 : 0 < totalCount df .A) (h2 : 0 < totalCount df .B) :
    run_ab_test df =
      .ok (specTest_z (successCount df .A) (totalCount df .A)
             (successCount df .B) (totalCount df .B),
           specTest_pvalue (successCount df .A) (totalCount df .A)
             (successCount df .B) (totalCount df .B)) := by
  unfold run_ab_test conv_counts total_counts
  rw [hg]
  simp only [List.map_cons, List.map_nil]
  unfold proportions_ztest specTest_pvalue specTest_z normSF
  simp [sub_zero]

/-- Concrete instance of `run_ab_test_eq_spec` on a four-row dataset. -/
theorem run_ab_test_eq_spec_witness :
    presentGroups [⟨.A, 1⟩, ⟨.A, 0⟩, ⟨.B, 0⟩, ⟨.B, 1⟩] =
        [GroupLabel.A, GroupLabel.B] ∧
    0 < totalCount [⟨.A, 1⟩, ⟨.A, 0⟩, ⟨.B, 0⟩, ⟨.B, 1⟩] .A ∧
    run_ab_test [⟨.A, 1⟩, ⟨.A, 0⟩, ⟨.B, 0⟩, ⟨.B, 1⟩] =
      .ok (specTest_z 1 2 1 2, specTest_pvalue 1 2 1 2) :=
  ⟨by decide, by decide,
   run_ab_test_eq_spec [⟨.A, 1⟩, ⟨.A, 0⟩, ⟨.B, 0⟩, ⟨.B, 1⟩]
     (by decide) (by decide) (by decide)⟩

/-! ## C2: summarize ∘ generate yields exact totals and bounded successes -/

/-- **C2**.  For all `n_A, n_B > 0` and `p_A, p_B ∈ (0,1)` and any
uniform-variate streams, `generate_data` succeeds and
`conversion_summary` of its dataset lists group `A` with total exactly
`n_A` and group `B` with total exactly `n_B`, the success counts lying in
`[0, n_A]` and `[0, n_B]` (lower bound by the `ℕ` type). -/
theorem summarize_generate_counts (n_A n_B : ℤ) (p_A p_B : ℚ)
    (uA uB : ℕ → ℚ) (hnA : 0 < n_A) (hnB : 0 < n_B)
    (hpA : 0 < p_A ∧ p_A < 1) (hpB : 0 < p_B ∧ p_B < 1) :
    ∃ df sA sB rA rB,
      generate_data n_A n_B p_A p_B uA uB = .ok df ∧
      conversion_summary df =
        [(.A, ⟨sA, n_A.toNat, rA⟩), (.B, ⟨sB, n_B.toNat, rB⟩)] ∧
      sA ≤ n_A.toNat ∧ sB ≤ n_B.toNat := by
  have cA : ¬(p_A < 0 ∨ 1 < p_A ∨ n_A < 0) := by
    push_neg
    exact ⟨hpA.1.le, hpA.2.le, hnA.le⟩
  have cB : ¬(p_B < 0 ∨ 1 < p_B ∨ n_B < 0) := by
    push_neg
    exact ⟨hpB.1.le, hpB.2.le, hnB.le⟩
  have hok : generate_data n_A n_B p_A p_B uA uB =
      .ok (labelRows .A (bernoulliDraws p_A n_A.toNat uA) ++
           labelRows .B (bernoulliDraws p_B n_B.toNat uB)) := by
    unfold generate_data
    rw [if_neg cA, if_neg cB]
  have hA : bernoulliDraws p_A n_A.toNat uA ≠ [] := by
    refine List.ne_nil_of_length_pos ?_
    rw [bernoulliDraws_length]
    omega
  have hB : bernoulliDraws p_B n_B.toNat uB ≠ [] := by
    refine List.ne_nil_of_length_pos ?_
    rw [bernoulliDraws_length]
    omega
  refine ⟨_, (bernoulliDraws p_A n_A.toNat uA).sum,
    (bernoulliDraws p_B n_B.toNat uB).sum,
    ((bernoulliDraws p_A n_A.toNat uA).sum : ℚ) / (n_A.toNat : ℚ),
    ((bernoulliDraws p_B n_B.toNat uB).sum : ℚ) / (n_B.toNat : ℚ),
    hok, ?_, ?_, ?_⟩
  · unfold conversion_summary
    rw [presentGroups_gen _ _ hA hB]
    simp [successCount_genA, successCount_genB, totalCount_genA,
      totalCount_genB, bernoulliDraws_length]
  · exact bernoulliDraws_sum_le _ _ _
  · exact bernoulliDraws_sum_le _ _ _

/-- Concrete instance of `summarize_generate_counts` at
`n_A = 2, n_B = 3, p_A = p_B = 1/2`. -/
theorem summarize_generate_counts_witness :
    (0 : ℤ) < 2 ∧ (0 : ℚ) < 1/2 ∧
    (∃ df sA sB rA rB,
      generate_data 2 3 (1/2) (1/2) (fun _ => 0) (fun _ => 3/4) = .ok df ∧
      conversion_summary df =
        [(.A, ⟨sA, (2 : ℤ).toNat, rA⟩), (.B, ⟨sB, (3 : ℤ).toNat, rB⟩)] ∧
      sA ≤ (2 : ℤ).toNat ∧ sB ≤ (3 : ℤ).toNat) :=
  ⟨by norm_num, by norm_num,
   summarize_generate_counts 2 3 (1/2) (1/2) (fun _ => 0) (fun _ => 3/4)
     (by norm_num) (by norm_num) (by norm_num) (by norm_num)⟩

/-! ## C9: conversion rates are ratios in [0,1] for present groups -/

/-- **C9**.  Every row of `conversion_summary` of a generated dataset
reports `conversion_rate = sum / count` with a positive total count and
`0 ≤ conversion_rate ≤ 1`. -/
theorem conversion_rate_bounds (n_A n_B : ℤ) (p_A p_B : ℚ) (uA uB : ℕ → ℚ)
    (df : Dataset) (hdf : generate_data n_A n_B p_A p_B uA uB = .ok df)
    (g : GroupLabel) (s : GroupSummary)
    (hmem : (g, s) ∈ conversion_summary df) :
    s.conversion_rate = (s.sum : ℚ) / (s.count : ℚ) ∧
    0 < s.count ∧ 0 ≤ s.conversion_rate ∧ s.conversion_rate ≤ 1 := by
  unfold generate_data at hdf
  by_cases c1 : p_A < 0 ∨ 1 < p_A ∨ n_A < 0
  · rw [if_pos c1] at hdf
    cases hdf
  by_cases c2 : p_B < 0 ∨ 1 < p_B ∨ n_B < 0
  · rw [if_neg c1, if_pos c2] at hdf
    cases hdf
  rw [if_neg c1, if_neg c2] at hdf
  injection hdf with hdf
  subst hdf
  unfold conversion_summary at hmem
  obtain ⟨g', hg', heq⟩ := List.mem_map.mp hmem
  rw [Prod.mk.injEq] at heq
  obtain ⟨rfl, rfl⟩ := heq
  set df0 : Dataset := labelRows .A (bernoulliDraws p_A n_A.toNat uA) ++
      labelRows .B (bernoulliDraws p_B n_B.toNat uB) with hdf0
  have hcount : 0 < totalCount df0 g' := totalCount_pos_of_mem df0 g' hg'
  have hle : successCount df0 g' ≤ totalCount df0 g' := by
    refine successCount_le_totalCount df0 g' ?_
    exact generated_converted_le_one _ _
      (bernoulliDraws_le_one _ _ _) (bernoulliDraws_le_one _ _ _)
  refine ⟨rfl, hcount, ?_, ?_⟩
  · exact div_nonneg (Nat.cast_nonneg _) (Nat.cast_nonneg _)
  · rw [div_le_one (by exact_mod_cast hcount)]
    exact_mod_cast hle

/-- Concrete instance of `conversion_rate_bounds` on the dataset generated
at `n_A = n_B = 1, p_A = p_B = 1/2` with constant-zero streams. -/
theorem conversion_rate_bounds_witness :
    (⟨1, 1, 1⟩ : GroupSummary).conversion_rate =
        ((1 : ℕ) : ℚ) / ((1 : ℕ) : ℚ) ∧
    0 < (⟨1, 1, 1⟩ : GroupSummary).count ∧
    0 ≤ (⟨1, 1, 1⟩ : GroupSummary).conversion_rate ∧
    (⟨1, 1, 1⟩ : GroupSummary).conversion_rate ≤ 1 :=
  conversion_rate_bounds 1 1 (1/2) (1/2) (fun _ => 0) (fun _ => 0)
    [⟨.A, 1⟩, ⟨.B, 1⟩]
    (by norm_num [generate_data, bernoulliDraws, labelRows]) .A ⟨1, 1, 1⟩
    (by
      have hp : presentGroups [⟨.A, 1⟩, ⟨.B, 1⟩] = [.A, .B] := by decide
      have hs : successCount [⟨.A, 1⟩, ⟨.B, 1⟩] .A = 1 := by decide
      have ht : totalCount [⟨.A, 1⟩, ⟨.B, 1⟩] .A = 1 := by decide
      unfold conversion_summary
      rw [hp]
      simp only [List.map_cons, List.mem_cons]
      left
      rw [hs, ht]
      norm_num)

/-! ## Shared lemmas about the two-sample branch of the z-test -/

lemma proportions_ztest_two (x1 x2 n1 n2 : ℕ) :
    proportions_ztest [x1, x2] [n1, n2] =
      .ok (specTest_z x1 n1 x2 n2, specTest_pvalue x1 n1 x2 n2) := by
  unfold proportions_ztest specTest_pvalue specTest_z normSF
  simp [sub_zero]

lemma specTest_z_swap (x1 x2 n1 n2 : ℕ) :
    specTest_z x2 n2 x1 n1 = -specTest_z x1 n1 x2 n2 := by
  unfold specTest_z
  dsimp only
  have hSE : Real.sqrt ((((x2 : ℝ) + x1) / ((n2 : ℝ) + n1)) *
        (1 - ((x2 : ℝ) + x1) / ((n2 : ℝ) + n1)) *
        (1 / (n2 : ℝ) + 1 / (n1 : ℝ))) =
      Real.sqrt ((((x1 : ℝ) + x2) / ((n1 : ℝ) + n2)) *
        (1 - ((x1 : ℝ) + x2) / ((n1 : ℝ) + n2)) *
        (1 / (n1 : ℝ) + 1 / (n2 : ℝ))) := by
    congr 1
    ring
  rw [hSE, ← neg_div, neg_sub]

lemma specTest_pvalue_swap (x1 x2 n1 n2 : ℕ) :
    specTest_pvalue x2 n2 x1 n1 = specTest_pvalue x1 n1 x2 n2 := by
  unfold specTest_pvalue
  rw [specTest_z_swap, abs_neg]

/-! ## C4: swapping the two groups flips only the sign of z -/

/-- **C4**.  For every pair of group summaries `(x1, n1)`, `(x2, n2)` with
positive totals, the test on the swapped pair returns the same p-value and
a z-statistic of the same absolute value (it changes only in sign). -/
theorem proportions_ztest_swap_symmetric (x1 x2 n1 n2 : ℕ)
    (h1 : 0 < n1) (h2 : 0 < n2) :
    ∃ z z' p,
      proportions_ztest [x1, x2] [n1, n2] = .ok (z, p) ∧
      proportions_ztest [x2, x1] [n2, n1] = .ok (z', p) ∧
      z' = -z ∧ |z'| = |z| := by
  refine ⟨specTest_z x1 n1 x2 n2, specTest_z x2 n2 x1 n1,
    specTest_pvalue x1 n1 x2 n2, proportions_ztest_two x1 x2 n1 n2, ?_, ?_, ?_⟩
  · rw [proportions_ztest_two x2 x1 n2 n1, specTest_pvalue_swap]
  · exact specTest_z_swap x1 x2 n1 n2
  · rw [specTest_z_swap, abs_neg]

/-- Concrete instance of `proportions_ztest_swap_symmetric` at
`(x1, n1) = (3, 10)`, `(x2, n2) = (5, 10)`. -/
theorem proportions_ztest_swap_symmetric_witness :
    0 < 10 ∧
    (∃ z z' p,
      proportions_ztest [3, 5] [10, 10] = .ok (z, p) ∧
      proportions_ztest [5, 3] [10, 10] = .ok (z', p) ∧
      z' = -z ∧ |z'| = |z|) :=
  ⟨by decide, proportions_ztest_swap_symmetric 3 5 10 10 (by decide) (by decide)⟩

/-! ## C6: the generator fails exactly on out-of-range parameters -/

/-- **C6**.  `generate_data` fails (with the invalid-parameter error numpy
raises) exactly when a sample size is negative or a probability lies
outside `[0,1]`; on every in-range input it returns a dataset and raises
nothing. -/
theorem generate_data_invalid_parameter (n_A n_B : ℤ) (p_A p_B : ℚ)
    (uA uB : ℕ → ℚ) :
    (generate_data n_A n_B p_A p_B uA uB = .error .invalidParameter ↔
      n_A < 0 ∨ n_B < 0 ∨ p_A < 0 ∨ 1 < p_A ∨ p_B < 0 ∨ 1 < p_B) ∧
    (¬(n_A < 0 ∨ n_B < 0 ∨ p_A < 0 ∨ 1 < p_A ∨ p_B < 0 ∨ 1 < p_B) →
      ∃ df, generate_data n_A n_B p_A p_B uA uB = .ok df) := by
  unfold generate_data
  by_cases c1 : p_A < 0 ∨ 1 < p_A ∨ n_A < 0
  · rw [if_pos c1]
    constructor
    · simp only [true_iff]
      tauto
    · intro h
      exact absurd c1 (by tauto)
  by_cases c2 : p_B < 0 ∨ 1 < p_B ∨ n_B < 0
  · rw [if_neg c1, if_pos c2]
    constructor
    · simp only [true_iff]
      tauto
    · intro h
      exact absurd c2 (by tauto)
  · rw [if_neg c1, if_neg c2]
    push_neg at c1 c2
    constructor
    · constructor
      · intro h
        exact Except.noConfusion h
      · intro h
        exfalso
        rcases h with h | h | h | h | h | h
        · exact absurd h (not_lt.mpr c1.2.2)
        · exact absurd h (not_lt.mpr c2.2.2)
        · exact absurd h (not_lt.mpr c1.1)
        · exact absurd h (not_lt.mpr c1.2.1)
        · exact absurd h (not_lt.mpr c2.1)
        · exact absurd h (not_lt.mpr c2.2.1)
    · intro _
      exact ⟨_, rfl⟩

/-- Concrete instance of `generate_data_invalid_parameter`: a negative
sample size makes the generator fail. -/
theorem generate_data_invalid_parameter_witness :
    generate_data (-1) 5 (1/2) (1/2) (fun _ => 0) (fun _ => 0) =
      .error .invalidParameter :=
  (generate_data_invalid_parameter (-1) 5 (1/2) (1/2)
    (fun _ => 0) (fun _ => 0)).1.mpr (by norm_num)

/-! ## C3: degenerate pooled proportion raises nothing -/

/-- **C3** (refuting the claimed behavior).  Whenever both groups are
present, `run_ab_test` takes the two-sample branch and returns normally —
the code has no degenerate-input check at all, so at `p̄ ∈ {0, 1}` it
divides by a zero standard error (producing `NaN` in the floats) instead
of raising a `DegenerateInput` error. -/
theorem run_ab_test_never_degenerate_error (df : Dataset)
    (hg : presentGroups df = [GroupLabel.A, GroupLabel.B]) :
    isOkE (run_ab_test df) = true := by
  unfold run_ab_test conv_counts total_counts
  rw [hg]
  simp only [List.map_cons, List.map_nil]
  rw [proportions_ztest_two]
  rfl

/-- Concrete instance of `run_ab_test_never_degenerate_error` at a fully
degenerate dataset: no conversions at all, so the pooled proportion is `0`
and the pooled variance is `0`, yet the test still returns normally. -/
theorem run_ab_test_never_degenerate_error_witness :
    presentGroups [⟨.A, 0⟩, ⟨.A, 0⟩, ⟨.B, 0⟩, ⟨.B, 0⟩] =
        [GroupLabel.A, GroupLabel.B] ∧
    conv_counts [⟨.A, 0⟩, ⟨.A, 0⟩, ⟨.B, 0⟩, ⟨.B, 0⟩] = [0, 0] ∧
    isOkE (run_ab_test [⟨.A, 0⟩, ⟨.A, 0⟩, ⟨.B, 0⟩, ⟨.B, 0⟩]) = true :=
  ⟨by decide, by decide,
   run_ab_test_never_degenerate_error [⟨.A, 0⟩, ⟨.A, 0⟩, ⟨.B, 0⟩, ⟨.B, 0⟩]
     (by decide)⟩

/-! ## C5: an empty group raises no InsufficientData error -/

/-- **C5** (refuting the claimed behavior).  On a dataset whose group `A`
has zero observations, `conversion_summary` silently returns a table
without group `A` (no error of any kind), and `run_ab_test` fails with the
statsmodels one-sample `ValueError` — neither operation signals an
`InsufficientData` error. -/
theorem empty_group_no_insufficient_data_error :
    conversion_summary [⟨.B, 1⟩, ⟨.B, 0⟩, ⟨.B, 1⟩] =
      [(.B, ⟨2, 3, (2 : ℚ) / 3⟩)] ∧
    run_ab_test [⟨.B, 1⟩, ⟨.B, 0⟩, ⟨.B, 1⟩] = .error .valueRequiredOneSample := by
  constructor
  · have hp : presentGroups [⟨.B, 1⟩, ⟨.B, 0⟩, ⟨.B, 1⟩] = [.B] := by decide
    have hs : successCount [⟨.B, 1⟩, ⟨.B, 0⟩, ⟨.B, 1⟩] .B = 2 := by decide
    have ht : totalCount [⟨.B, 1⟩, ⟨.B, 0⟩, ⟨.B, 1⟩] .B = 3 := by decide
    unfold conversion_summary
    rw [hp]
    simp only [List.map_cons, List.map_nil]
    rw [hs, ht]
    norm_num
  · rfl

/-! ## C8: the pipeline is a deterministic function of seed and parameters -/

/-- **C8**.  With `n_A = n_B = 1000`, `p_A = 0.10`, `p_B = 0.12`, a fixed
seed fixes the numpy draw streams; the generate-then-test pipeline
depends on nothing besides those streams and the parameters — any two
runs whose streams agree on the 1000 draws each group consumes return the
identical `(z, p-value)` pair.  In particular two runs with the very same
seeded streams coincide. -/
theorem pipeline_deterministic (uA uB vA vB : ℕ → ℚ)
    (hA : ∀ i < 1000, uA i = vA i) (hB : ∀ i < 1000, uB i = vB i) :
    pipeline 1000 1000 (1/10) (3/25) uA uB =
      pipeline 1000 1000 (1/10) (3/25) vA vB := by
  have h1 : bernoulliDraws (1/10) ((1000 : ℤ)).toNat uA =
      bernoulliDraws (1/10) ((1000 : ℤ)).toNat vA :=
    bernoulliDraws_congr _ _ _ _ (fun i hi => hA i (by simpa using hi))
  have h2 : bernoulliDraws (3/25) ((1000 : ℤ)).toNat uB =
      bernoulliDraws (3/25) ((1000 : ℤ)).toNat vB :=
    bernoulliDraws_congr _ _ _ _ (fun i hi => hB i (by simpa using hi))
  unfold pipeline generate_data
  rw [h1, h2]

/-- Concrete instance of `pipeline_deterministic`: two runs from the same
constant streams. -/
theorem pipeline_deterministic_witness :
    pipeline 1000 1000 (1/10) (3/25) (fun _ => 1/3) (fun _ => 2/3) =
      pipeline 1000 1000 (1/10) (3/25) (fun _ => 1/3) (fun _ => 2/3) :=
  pipeline_deterministic (fun _ => 1/3) (fun _ => 2/3)
    (fun _ => 1/3) (fun _ => 2/3) (fun _ _ => rfl) (fun _ _ => rfl)

/-! ## C7: the sensitivity sweep -/

/-- **C7** (counterexample to the claimed shape).  At
`n_A = n_B = 1000` the integer-cast sample sizes step by 47 and then by
48 — not evenly spaced — and at `n_A = n_B = 50` the second size drops
below the first, so the range is not ascending. -/
theorem sweep_sizes_not_evenly_spaced :
    (sweep_size 1000 1000 1 - sweep_size 1000 1000 0 ≠
      sweep_size 1000 1000 3 - sweep_size 1000 1000 2) ∧
    sweep_size 50 50 1 < sweep_size 50 50 0 := by
  have e0 : sweep_size 1000 1000 0 = 100 := by
    norm_num [sweep_size, truncToInt]
  have e1 : sweep_size 1000 1000 1 = 147 := by
    unfold sweep_size truncToInt
    rw [if_pos (by norm_num), Int.floor_eq_iff]
    constructor <;> norm_num
  have e2 : sweep_size 1000 1000 2 = 194 := by
    unfold sweep_size truncToInt
    rw [if_pos (by norm_num), Int.floor_eq_iff]
    constructor <;> norm_num
  have e3 : sweep_size 1000 1000 3 = 242 := by
    unfold sweep_size truncToInt
    rw [if_pos (by norm_num), Int.floor_eq_iff]
    constructor <;> norm_num
  have f0 : sweep_size 50 50 0 = 100 := by
    norm_num [sweep_size, truncToInt]
  have f1 : sweep_size 50 50 1 = 97 := by
    unfold sweep_size truncToInt
    rw [if_pos (by norm_num), Int.floor_eq_iff]
    constructor <;> norm_num
  rw [e0, e1, e2, e3, f0, f1]
  norm_num

lemma sweep_size_mono (n_A n_B : ℤ) (h : 100 ≤ max n_A n_B) :
    ∀ i j : ℕ, i ≤ j → sweep_size n_A n_B i ≤ sweep_size n_A n_B j := by
  intro i j hij
  have hM : (0 : ℚ) ≤ ((max n_A n_B : ℤ) : ℚ) - 100 := by
    have hM' : (100 : ℚ) ≤ ((max n_A n_B : ℤ) : ℚ) := by exact_mod_cast h
    linarith
  have hnn : ∀ k : ℕ,
      (0 : ℚ) ≤ 100 + (k : ℚ) * (((max n_A n_B : ℤ) : ℚ) - 100) / 19 := by
    intro k
    have hk : (0 : ℚ) ≤ (k : ℚ) * (((max n_A n_B : ℤ) : ℚ) - 100) / 19 :=
      div_nonneg (mul_nonneg (Nat.cast_nonneg k) hM) (by norm_num)
    linarith
  have harg : (100 : ℚ) + (i : ℚ) * (((max n_A n_B : ℤ) : ℚ) - 100) / 19 ≤
      100 + (j : ℚ) * (((max n_A n_B : ℤ) : ℚ) - 100) / 19 := by
    have hij' : (i : ℚ) ≤ (j : ℚ) := by exact_mod_cast hij
    have h1 : (i : ℚ) * (((max n_A n_B : ℤ) : ℚ) - 100) ≤
        (j : ℚ) * (((max n_A n_B : ℤ) : ℚ) - 100) :=
      mul_le_mul_of_nonneg_right hij' hM
    have h2 := (div_le_div_iff_of_pos_right (show (0 : ℚ) < 19 by norm_num)).mpr h1
    linarith
  unfold sweep_size truncToInt
  rw [if_pos (hnn i), if_pos (hnn j)]
  exact Int.floor_le_floor harg

/-- **C7** (amended).  For user sizes whose maximum is at least the floor
of 100, the sweep yields exactly 20 `(sample_size, p-value)` pairs; the
sizes are the integer casts of 20 evenly spaced real points, ascending
from 100 up to `max n_A n_B` exactly; and pair `i` is produced by an
independent generation-plus-test run at size `i` that reads only its own
fresh streams (replacing any other point's stream leaves it unchanged). -/
theorem sensitivity_sweep_amended (n_A n_B : ℤ) (p_A p_B : ℚ)
    (h : 100 ≤ max n_A n_B) (U V Uf Vf : ℕ → ℕ → ℚ) (i : ℕ) (hi : i < 20)
    (hU : U i = Uf i) (hV : V i = Vf i) :
    (sensitivity_sweep n_A n_B p_A p_B U V).length = 20 ∧
    List.Sorted (· ≤ ·) (sweep_sizes n_A n_B) ∧
    sweep_size n_A n_B 0 = 100 ∧
    sweep_size n_A n_B 19 = max n_A n_B ∧
    (sensitivity_sweep n_A n_B p_A p_B U V).getD i
        (0, Except.error PyError.notImplemented) =
      (sweep_size n_A n_B i,
        (sweep_point p_A p_B (sweep_size n_A n_B i).toNat (Uf i) (Vf i)).map
          Prod.snd) := by
  refine ⟨by simp [sensitivity_sweep], ?_, ?_, ?_, ?_⟩
  · unfold sweep_sizes
    have hp : List.Pairwise (· < ·) (List.range 20) := List.pairwise_lt_range 20
    exact hp.map _ (fun a b hab =>
      sweep_size_mono n_A n_B h a b (Nat.le_of_lt hab))
  · norm_num [sweep_size, truncToInt]
  · unfold sweep_size truncToInt
    have harg : (100 : ℚ) + ((19 : ℕ) : ℚ) *
        (((max n_A n_B : ℤ) : ℚ) - 100) / 19 = ((max n_A n_B : ℤ) : ℚ) := by
      push_cast
      ring
    rw [harg, if_pos (by exact_mod_cast le_trans (by norm_num) h),
      Int.floor_intCast]
  · unfold sensitivity_sweep
    rw [List.getD_eq_getElem?_getD, List.getElem?_map, List.getElem?_range hi,
      Option.map_some', Option.getD_some]
    rw [hU, hV]

/-- Concrete instance of `sensitivity_sweep_amended` at
`n_A = n_B = 1000`, sweep point `0`, constant streams. -/
theorem sensitivity_sweep_amended_witness :
    (100 : ℤ) ≤ max 1000 1000 ∧ (0 : ℕ) < 20 ∧
    ((sensitivity_sweep 1000 1000 (1/10) (3/25)
        (fun _ _ => 0) (fun _ _ => 0)).length = 20 ∧
      List.Sorted (· ≤ ·) (sweep_sizes 1000 1000) ∧
      sweep_size 1000 1000 0 = 100 ∧
      sweep_size 1000 1000 19 = max 1000 1000 ∧
      (sensitivity_sweep 1000 1000 (1/10) (3/25)
          (fun _ _ => 0) (fun _ _ => 0)).getD 0
          (0, Except.error PyError.notImplemented) =
        (sweep_size 1000 1000 0,
          (sweep_point (1/10) (3/25) (sweep_size 1000 1000 0).toNat
            ((fun _ _ => (0 : ℚ)) 0) ((fun _ _ => (0 : ℚ)) 0)).map
            Prod.snd)) :=
  ⟨by norm_num, by norm_num,
   sensitivity_sweep_amended 1000 1000 (1/10) (3/25) (by norm_num)
     (fun _ _ => 0) (fun _ _ => 0) (fun _ _ => 0) (fun _ _ => 0) 0
     (by norm_num) rfl rfl⟩

/-! ## C10: the dashboard guard -/

/-- **C10**.  The dashboard body computes only when all four inputs are
strictly positive: for any input with a zero value it renders only the
informational prompt, and under the guard both groups are nonempty, so
the z-test takes the two-sample branch and returns a result — the
divide-by-zero / empty-group path is unreachable from the dashboard. -/
theorem app_main_guarded (n_A n_B : ℕ) (p_A p_B : ℚ) (uA uB : ℕ → ℚ)
    (U V : ℕ → ℕ → ℚ) :
    (app_main n_A n_B p_A p_B uA uB U V = .prompt ↔
      ¬(0 < n_A ∧ 0 < n_B ∧ 0 < p_A ∧ 0 < p_B)) ∧
    ((0 < n_A ∧ 0 < n_B ∧ 0 < p_A ∧ 0 < p_B) →
      ∃ z p,
        app_main n_A n_B p_A p_B uA uB U V =
          .results
            (group_means (labelRows .A (bernoulliDraws p_A n_A uA) ++
                          labelRows .B (bernoulliDraws p_B n_B uB)))
            (.ok (z, p))
            (sensitivity_sweep n_A n_B p_A p_B U V)) := by
  by_cases hg : 0 < n_A ∧ 0 < n_B ∧ 0 < p_A ∧ 0 < p_B
  · have hA : bernoulliDraws p_A n_A uA ≠ [] := by
      refine List.ne_nil_of_length_pos ?_
      rw [bernoulliDraws_length]
      exact hg.1
    have hB : bernoulliDraws p_B n_B uB ≠ [] := by
      refine List.ne_nil_of_length_pos ?_
      rw [bernoulliDraws_length]
      exact hg.2.1
    have hok : run_ab_test (labelRows .A (bernoulliDraws p_A n_A uA) ++
        labelRows .B (bernoulliDraws p_B n_B uB)) =
        .ok (specTest_z (bernoulliDraws p_A n_A uA).sum n_A
               (bernoulliDraws p_B n_B uB).sum n_B,
             specTest_pvalue (bernoulliDraws p_A n_A uA).sum n_A
               (bernoulliDraws p_B n_B uB).sum n_B) := by
      unfold run_ab_test conv_counts total_counts
      rw [presentGroups_gen _ _ hA hB]
      simp only [List.map_cons, List.map_nil]
      rw [successCount_genA, successCount_genB, totalCount_genA,
        totalCount_genB, bernoulliDraws_length, bernoulliDraws_length]
      exact proportions_ztest_two _ _ _ _
    constructor
    · unfold app_main
      rw [if_pos hg]
      constructor
      · intro hcontra
        exact DashboardView.noConfusion hcontra
      · intro hn
        exact absurd hg hn
    · intro _
      refine ⟨specTest_z (bernoulliDraws p_A n_A uA).sum n_A
          (bernoulliDraws p_B n_B uB).sum n_B,
        specTest_pvalue (bernoulliDraws p_A n_A uA).sum n_A
          (bernoulliDraws p_B n_B uB).sum n_B, ?_⟩
      unfold app_main
      rw [if_pos hg]
      dsimp only
      rw [hok]
  · constructor
    · unfold app_main
      rw [if_neg hg]
      simp [hg]
    · intro h
      exact absurd h hg

/-- Concrete instance of `app_main_guarded`: with `n_A = 0` the dashboard
shows only the prompt. -/
theorem app_main_guarded_witness :
    app_main 0 1 (1/2) (1/2) (fun _ => 0) (fun _ => 0)
      (fun _ _ => 0) (fun _ _ => 0) = .prompt :=
  (app_main_guarded 0 1 (1/2) (1/2) (fun _ => 0) (fun _ => 0)
    (fun _ _ => 0) (fun _ _ => 0)).1.mpr (by norm_num)
